import Mathlib

/-
Verification of the asynchronous core and the cross-thread notification
bridge of `_qapp.py` (a PyQt5 helper layer).

The embedding models:
  * `Promise` objects (`_result`, `_then_fn`) living on a heap indexed by
    natural-number ids;
  * `Task` objects (promises that additionally own a coroutine), with
    `Task._wakeup` driving the coroutine;
  * the Qt event queue fed by `call_soon` and drained by
    `Application._invoke_function`;
  * `resolve_all`;
  * the message-box bridge `_show_info_msg_box` / `Application._show_message`
    as a function producing a trace of observable events.

Coroutines are embedded deeply as resumption trees (`CoroBody`), and a
coroutine object's run-time position is a `CoroState`.  Mutually recursive
callable invocation (`resolve`/`then` with `call_then_immediately=True`
re-enter a callable) is made total with a fuel parameter; exhausting the
fuel yields the artificial exception `PyExc.fuelOut`, which occurs in none
of the executions below.
-/

namespace QApp

/-- Python values used by the embedded fragment of `_qapp.py`: `None`,
integers, and lists (the result list built by `resolve_all`). -/
inductive Value where
  | none : Value
  | nat : Nat → Value
  | vlist : List Value → Value

/-- Python exceptions arising in the embedded fragment.  `assertionError`
models a failing `assert`; `stopIteration v` models `StopIteration` with
`exc.value = v`; `runtimeError` models the `RuntimeError` raised by
`coro.send` on an already-finished coroutine; `userExc n` is an arbitrary
application-level exception raised inside a driven computation.
`invalidRef` (a dangling heap id) and `fuelOut` (fuel exhaustion) are
artifacts of the embedding and occur in none of the executions below. -/
inductive PyExc where
  | assertionError
  | stopIteration (v : Value)
  | runtimeError
  | userExc (n : Nat)
  | invalidRef
  | fuelOut

/-- The closed universe of Python callables that the embedded fragment
stores or schedules: `wakeup tid` is the bound method `task._wakeup`;
`record` is an observing continuation that appends its argument to the
log (so we can see which value a `then`-continuation fires with);
`resolver pid v` is a scheduled closure that calls `p.resolve(v)` (with
the default `call_then_immediately=False`); `raises e` is a callable that
raises `e` when invoked (used to observe `_invoke_function`). -/
inductive Cb where
  | wakeup (tid : Nat)
  | record
  | resolver (pid : Nat) (v : Value)
  | raises (e : PyExc)

/-- Deep embedding of the suspendable computations driven by `Task`:
`ret v` is `return v` (surfacing as `StopIteration(v)` at `send` time);
`raiseE n` raises an application exception; `awaitP pid k` is `await p`
for the promise with heap id `pid` — per `Promise.__await__` it yields
the promise object itself and, when next resumed, continues as `k`
applied to the promise's stored `_result`; `yieldOther` yields a
non-`Promise` value (the defect path hitting `assert False` in
`Task._wakeup`). -/
inductive CoroBody where
  | ret (v : Value)
  | raiseE (n : Nat)
  | awaitP (pid : Nat) (k : Value → CoroBody)
  | yieldOther

/-- Run-time state of a coroutine object (`self._coro`): `fresh body` has
not been stepped yet; `paused pid k` is suspended at the `yield self`
inside `Promise.__await__` of promise `pid` (the next `send` reads that
promise's current `_result` — `assert self._result is not NO_RESULT` —
and continues as `k` of it); `finished` has completed or raised, so any
further `send` raises `RuntimeError`. -/
inductive CoroState where
  | fresh (body : CoroBody)
  | paused (pid : Nat) (k : Value → CoroBody)
  | finished

/-- Outcome of one `coro.send(None)` that did not raise: normal
completion (`StopIteration(v)`, caught by `Task._wakeup`), the coroutine
yielded the promise `pid`, or it yielded a non-promise value. -/
inductive SendOut where
  | stop (v : Value)
  | yielded (pid : Nat)
  | yieldedOther

/-- A `Promise` object (a `Task` is a promise whose `cstate` is `some`):
`result` is `_result` (with `none` encoding the `__NO_RESULT` sentinel),
`thenFn` is `_then_fn`, and `cstate` is `_coro` for tasks. -/
structure Obj where
  result : Option Value
  thenFn : Option Cb
  cstate : Option CoroState

/-- Global state of the embedded program: the object heap, the next
fresh heap id, the Qt event queue of `call_soon`-scheduled `(fn, args)`
pairs, and a log recording the values that `record` continuations were
fired with. -/
structure St where
  objs : Nat → Option Obj
  nextId : Nat
  queue : List (Cb × Value)
  log : List Value

/-- Overwrite the object stored at heap id `i`. -/
def St.setObj (st : St) (i : Nat) (o : Obj) : St :=
  { st with objs := fun j => if j = i then some o else st.objs j }

/-- Embeds `call_soon(fn, *args)`: emit `sig_call_soon` with a queued
connection, i.e. append `(fn, args)` to the Qt event queue. -/
def call_soon (st : St) (fn : Cb) (arg : Value) : St :=
  { st with queue := st.queue ++ [(fn, arg)] }

/-- Embeds `Promise.__init__` (without the optional `func` argument,
which no claim exercises): allocate a fresh pending promise and return
its heap id. -/
def Promise.init (st : St) : St × Nat :=
  ({ st with
      objs := fun j =>
        if j = st.nextId then some ⟨Option.none, Option.none, Option.none⟩
        else st.objs j,
      nextId := st.nextId + 1 }, st.nextId)

/-- Allocate a task object holding a not-yet-started coroutine (the
common part of `Task.__init__`). -/
def St.allocTask (st : St) (body : CoroBody) : St × Nat :=
  ({ st with
      objs := fun j =>
        if j = st.nextId then
          some ⟨Option.none, Option.none, some (CoroState.fresh body)⟩
        else st.objs j,
      nextId := st.nextId + 1 }, st.nextId)

/-- Advance a coroutine body to its next suspension point, completion or
exception (the pure part of `coro.send(None)`). -/
def stepBody : CoroBody → Except PyExc (SendOut × CoroState)
  | CoroBody.ret v => .ok (SendOut.stop v, CoroState.finished)
  | CoroBody.raiseE n => .error (PyExc.userExc n)
  | CoroBody.awaitP pid k => .ok (SendOut.yielded pid, CoroState.paused pid k)
  | CoroBody.yieldOther => .ok (SendOut.yieldedOther, CoroState.finished)

/-- Embeds `self._coro.send(None)`.  A paused coroutine resumes inside
`Promise.__await__`, which asserts that the awaited promise is resolved
and returns its stored `_result` into the awaiting expression; the value
passed to `send` (always `None` in `Task._wakeup`) is discarded. -/
def coroSend (st : St) : CoroState → Except PyExc (SendOut × CoroState)
  | CoroState.fresh body => stepBody body
  | CoroState.paused pid k =>
    match st.objs pid with
    | Option.none => .error PyExc.invalidRef
    | some o =>
      match o.result with
      | Option.none => .error PyExc.assertionError
      | some r => stepBody (k r)
  | CoroState.finished => .error PyExc.runtimeError

mutual

/-- Invocation of a stored or scheduled Python callable with one
argument.  The argument is ignored by `_wakeup` (whose parameter
`_result` is unused) and by `resolver` closures. -/
def invokeCb : Nat → St → Cb → Value → Except PyExc St
  | 0, _, _, _ => .error PyExc.fuelOut
  | fuel + 1, st, Cb.wakeup tid, _ => Task.wakeup fuel st tid
  | _ + 1, st, Cb.record, arg => .ok { st with log := st.log ++ [arg] }
  | fuel + 1, st, Cb.resolver pid v, _ => Promise.resolve fuel st pid v false
  | _ + 1, _, Cb.raises e, _ => .error e

/-- Embeds `Promise.resolve(self, result, call_then_immediately=False)`:
assert not yet resolved, store the result, and if a continuation is
registered invoke it — inline when `call_then_immediately`, otherwise
through `call_soon`. -/
def Promise.resolve : Nat → St → Nat → Value → Bool → Except PyExc St
  | 0, _, _, _, _ => .error PyExc.fuelOut
  | fuel + 1, st, pid, v, imm =>
    match st.objs pid with
    | Option.none => .error PyExc.invalidRef
    | some o =>
      match o.result with
      | some _ => .error PyExc.assertionError
      | Option.none =>
        let st1 := st.setObj pid { o with result := some v }
        match o.thenFn with
        | Option.none => .ok st1
        | some fn =>
          if imm then invokeCb fuel st1 fn v
          else .ok (call_soon st1 fn v)

/-- Embeds `Promise.then(self, then_fn, call_then_immediately=False)`
(named `thenOp` because `then` is reserved in Lean): assert no
continuation registered yet, store it, and if already resolved invoke it
with the stored result — inline when `call_then_immediately`, otherwise
through `call_soon`. -/
def Promise.thenOp : Nat → St → Nat → Cb → Bool → Except PyExc St
  | 0, _, _, _, _ => .error PyExc.fuelOut
  | fuel + 1, st, pid, fn, imm =>
    match st.objs pid with
    | Option.none => .error PyExc.invalidRef
    | some o =>
      match o.thenFn with
      | some _ => .error PyExc.assertionError
      | Option.none =>
        let st1 := st.setObj pid { o with thenFn := some fn }
        match o.result with
        | Option.none => .ok st1
        | some r =>
          if imm then invokeCb fuel st1 fn r
          else .ok (call_soon st1 fn r)

/-- Embeds `Task._wakeup(self, _result=None)`: `send(None)` into the
coroutine; on `StopIteration(v)` resolve the task's own promise with `v`
(default scheduling); on a yielded promise, register `self._wakeup` as
its continuation (default scheduling); on a yielded non-promise,
`assert False`; any other exception from `send` propagates uncaught. -/
def Task.wakeup : Nat → St → Nat → Except PyExc St
  | 0, _, _ => .error PyExc.fuelOut
  | fuel + 1, st, tid =>
    match st.objs tid with
    | Option.none => .error PyExc.invalidRef
    | some o =>
      match o.cstate with
      | Option.none => .error PyExc.invalidRef
      | some cs =>
        match coroSend st cs with
        | .error e => .error e
        | .ok (out, cs1) =>
          let st1 := st.setObj tid { o with cstate := some cs1 }
          match out with
          | SendOut.stop v => Promise.resolve fuel st1 tid v false
          | SendOut.yielded pid => Promise.thenOp fuel st1 pid (Cb.wakeup tid) false
          | SendOut.yieldedOther => .error PyExc.assertionError

end

/-- Embeds `Application._invoke_function(self, fn, args)`: run one
scheduled callback, swallowing `StopIteration` (`except StopIteration:
pass`); any other exception escapes to the Qt dispatcher and is returned
alongside the state.  The failing callables in the runs below mutate
nothing before raising, so returning the pre-call state on an exception
is faithful. -/
def invokeFunction (fuel : Nat) (st : St) (c : Cb × Value) : St × Option PyExc :=
  match invokeCb fuel st c.1 c.2 with
  | .ok st1 => (st1, Option.none)
  | .error (PyExc.stopIteration _) => (st, Option.none)
  | .error e => (st, some e)

/-- The external Qt event loop draining the queue: pop and run scheduled
callbacks in FIFO order until the queue is empty (or the fuel runs out),
stopping at the first exception that escapes `_invoke_function`. -/
def runQueue : Nat → St → St × Option PyExc
  | 0, st => (st, some PyExc.fuelOut)
  | fuel + 1, st =>
    match st.queue with
    | [] => (st, Option.none)
    | c :: rest =>
      match invokeFunction fuel { st with queue := rest } c with
      | (st1, Option.none) => runQueue fuel st1
      | (st1, some e) => (st1, some e)

/-- Embeds `Task.__init__(self, coro, start_immediately=False)`:
allocate the task's own promise, store the coroutine, then either step
it immediately or schedule the first `_wakeup` through `call_soon`
(`create_task = Task`). -/
def Task.create (fuel : Nat) (st : St) (body : CoroBody) (startImm : Bool) :
    Except PyExc (St × Nat) :=
  let a := st.allocTask body
  if startImm then (Task.wakeup fuel a.1 a.2).map (fun st2 => (st2, a.2))
  else .ok (call_soon a.1 (Cb.wakeup a.2) Value.none, a.2)

/-- An item of the list `A` passed to `resolve_all`: a coroutine, or an
already-existing promise given by its heap id. -/
inductive RAItem where
  | coro (body : CoroBody)
  | prom (pid : Nat)

/-- The comprehension `A1 = [a if isinstance(a, Promise) else
create_task(a, False) for a in A]` of `resolve_all`: wrap every
coroutine item as a deferred task, in input order, and collect the
promise ids.  `create_task(_, False)` cannot raise. -/
def resolveAllSetup (st : St) : List RAItem → St × List Nat
  | [] => (st, [])
  | RAItem.prom pid :: rest =>
    let a := resolveAllSetup st rest
    (a.1, pid :: a.2)
  | RAItem.coro body :: rest =>
    let t := st.allocTask body
    let a := resolveAllSetup (call_soon t.1 (Cb.wakeup t.2) Value.none) rest
    (a.1, t.2 :: a.2)

/-- The loop body of `resolve_all` once `A1` is built:
`R = []; for a1 in A1: R.append(await a1); return R`. -/
def resolveAllBody (acc : List Value) : List Nat → CoroBody
  | [] => CoroBody.ret (Value.vlist acc)
  | pid :: rest => CoroBody.awaitP pid (fun v => resolveAllBody (acc ++ [v]) rest)

/-- Embeds `resolve_all(A)` as the pair (state after building `A1`, the
await-loop coroutine body).  In Python the comprehension runs at the
coroutine's first step; performing it at construction time is equivalent
for the executions considered here and keeps coroutine bodies free of
allocation effects. -/
def resolve_all (st : St) (A : List RAItem) : St × CoroBody :=
  let a := resolveAllSetup st A
  (a.1, resolveAllBody [] a.2)

/-- Read off the `_result` field of the object at heap id `i` (outer
`none` means no such object). -/
def resultOf (st : St) (i : Nat) : Option (Option Value) :=
  (st.objs i).map Obj.result

/-- The empty initial state: no objects, empty queue, empty log. -/
def st0 : St := ⟨fun _ => Option.none, 0, [], []⟩

/-
Cross-thread notification bridge (`install_message_hooks`'s
`_show_info_msg_box` and `Application._show_message`).

The bridge is embedded as a function from its inputs (whether the
`qapp` singleton still exists, the `_interactive_msg` flag, whether the
calling thread is the loop-owning thread, whether the main window has a
`pause_for_notification` hook, and the button the user eventually
presses) to the ordered trace of observable events plus the final
outcome — `none` for a normal return of `_show_info_msg_box`, or
`some c` when `sys.exit(c)` was raised inside the hand-off, in which
case control never returns to the caller of `_show_info_msg_box`.
-/

/-- The button the user presses in the message box (`QMessageBox.Ignore`
or `QMessageBox.Abort`). -/
inductive MsgChoice where
  | ignore
  | abort

/-- Observable events of the notification bridge, in program order:
`stderrWrite info` is `sys.stderr.write(''.join(info))`;
`handoffEnter blocking` is the `QMetaObject.invokeMethod` call into
`_show_message` (`blocking = true` for `BlockingQueuedConnection`,
`false` for `DirectConnection`); `handlerStart` is entry into
`Application._show_message` on the loop-owning thread; `pauseHook` is
the optional `main_window.pause_for_notification()` call; `dialogShown`
is the blocking `mbox.exec_()`; `exitCall c` is `sys.exit(c)`;
`handoffExit` is the return of `invokeMethod` (the hand-off unwinding);
`notifyReturn` is `_show_info_msg_box` returning to its caller. -/
inductive NEvent where
  | stderrWrite (info : List String)
  | handoffEnter (blocking : Bool)
  | handlerStart
  | pauseHook
  | dialogShown
  | exitCall (c : Int)
  | handoffExit
  | notifyReturn
deriving DecidableEq

/-- Inputs determining the bridge's control flow. -/
structure BridgeIn where
  qappExists : Bool
  interactiveMsg : Bool
  callerIsLoopThread : Bool
  hasPauseHook : Bool

/-- Embeds `Application._show_message(self, icon, title, info, msg)`,
run on the loop-owning thread: optionally call the main window's
`pause_for_notification` hook, show the blocking message box, and if the
user chose Abort call `sys.exit(-1)` right there, inside the slot.
Returns the handler's event trace and `some c` when `sys.exit(c)` was
raised (so the slot does not return normally). -/
def Application.showMessage (hasPauseHook : Bool) (choice : MsgChoice) :
    List NEvent × Option Int :=
  let t :=
    [NEvent.handlerStart] ++ (if hasPauseHook then [NEvent.pauseHook] else [])
      ++ [NEvent.dialogShown]
  match choice with
  | MsgChoice.ignore => (t, Option.none)
  | MsgChoice.abort => (t ++ [NEvent.exitCall (-1)], some (-1))

/-- Embeds `_show_info_msg_box(icon, title, info, msg)` (the `notify`
operation): always write the detail lines to `stderr` first; then, only
if the `qapp` singleton still exists and `_interactive_msg` is set,
invoke `Application._show_message` through `QMetaObject.invokeMethod` —
with `DirectConnection` when the caller is the loop-owning thread and
`BlockingQueuedConnection` (a blocking hand-off) otherwise.  A
`sys.exit` raised inside the slot prevents the hand-off from unwinding
and `_show_info_msg_box` from returning. -/
def showInfoMsgBox (b : BridgeIn) (choice : MsgChoice) (info : List String) :
    List NEvent × Option Int :=
  let t0 := [NEvent.stderrWrite info]
  if b.qappExists && b.interactiveMsg then
    let blocking := !b.callerIsLoopThread
    let h := Application.showMessage b.hasPauseHook choice
    match h.2 with
    | some c => (t0 ++ [NEvent.handoffEnter blocking] ++ h.1, some c)
    | Option.none =>
      (t0 ++ [NEvent.handoffEnter blocking] ++ h.1
        ++ [NEvent.handoffExit, NEvent.notifyReturn], Option.none)
  else
    (t0 ++ [NEvent.notifyReturn], Option.none)

/-
Scenario states and observation helpers used by the theorems below.
-/

/-- Python `a + b` on two integer values (used by scenario coroutine
bodies). -/
def vadd : Value → Value → Value
  | Value.nat a, Value.nat b => Value.nat (a + b)
  | _, _ => Value.none

/-- Log of the state of a non-raising call (`none` when the call
raised). -/
def exLog : Except PyExc St → Option (List Value)
  | .ok s => some s.log
  | .error _ => Option.none

/-- Event queue of the state of a non-raising call (`none` when the
call raised). -/
def exQueue : Except PyExc St → Option (List (Cb × Value))
  | .ok s => some s.queue
  | .error _ => Option.none

/-- Stored result of object `i` in the state of a non-raising call
(`none` when the call raised). -/
def exResultOf (e : Except PyExc St) (i : Nat) : Option (Option (Option Value)) :=
  match e with
  | .ok s => some (resultOf s i)
  | .error _ => Option.none

/-- A state holding a single promise (heap id 0) with the given
`_result` and `_then_fn` fields. -/
def stP (r : Option Value) (t : Option Cb) : St :=
  ⟨fun j => if j = 0 then some ⟨r, t, Option.none⟩ else Option.none, 1, [], []⟩

/-- The two-suspension computation of the driver scenario:
`return (await p0) + (await p1)`. -/
def C1body : CoroBody :=
  CoroBody.awaitP 0 (fun a => CoroBody.awaitP 1 (fun b => CoroBody.ret (vadd a b)))

/-- Driver scenario start state: two pending promises (ids 0 and 1), a
deferred task (id 2) driving `C1body`, and two scheduled resolutions
delivering 1 to promise 0 and then 2 to promise 1. -/
def C1st : St :=
  match Task.create 0 (Promise.init (Promise.init st0).1).1 C1body false with
  | .ok a => call_soon (call_soon a.1 (Cb.resolver 0 (Value.nat 1)) Value.none)
      (Cb.resolver 1 (Value.nat 2)) Value.none
  | .error _ => st0

/-- Fault scenario start state: a deferred task (id 0) whose computation
raises exception 7 before suspending. -/
def C3st : St :=
  match Task.create 0 st0 (CoroBody.raiseE 7) false with
  | .ok a => a.1
  | .error _ => st0

/-- Late-registration scenario state: a promise (id 0) already resolved
with 42 and nothing scheduled. -/
def C5st : St :=
  match Promise.resolve 1 (Promise.init st0).1 0 (Value.nat 42) false with
  | .ok s => s
  | .error _ => st0

/-- Batch-await scenario start state over symbolic values: promise 0 is
pending and listed first; `resolve_all` over `[promise 0, coro (return
va), coro (return vc)]` wraps the two coroutines as tasks 1 and 2; the
batch task itself is id 3; promise 0 is resolved with `vp` only by the
last queue entry, after both wrapped tasks have completed and after the
batch task has already registered its continuation on the still-pending
promise 0 — so completion order is task 1, task 2, promise 0, the
reverse of how input order starts. -/
def C6st (vp va vc : Value) : St :=
  let p := Promise.init st0
  let ra := resolve_all p.1 [RAItem.prom p.2, RAItem.coro (CoroBody.ret va),
    RAItem.coro (CoroBody.ret vc)]
  match Task.create 0 ra.1 ra.2 false with
  | .ok a => call_soon a.1 (Cb.resolver p.2 vp) Value.none
  | .error _ => st0

/-
Theorems settling the claims.
-/

/-- Claim C4: `resolve` may succeed at most once — calling `resolve` on
an already-resolved container fails with the programming-error fault
(`AssertionError` from `assert self._result is Promise.__NO_RESULT`),
for either scheduling policy, and is never silently accepted. -/
theorem C4_double_resolve_rejected (fuel : Nat) (st : St) (pid : Nat) (o : Obj)
    (w v : Value) (imm : Bool)
    (h1 : st.objs pid = some o) (h2 : o.result = some w) :
    Promise.resolve (fuel + 1) st pid v imm = .error PyExc.assertionError := by
  simp [Promise.resolve, h1, h2]

/-- Witness for the double-resolution theorem at a concrete resolved
promise. -/
theorem C4_witness :
    Promise.resolve 1 (stP (some (Value.nat 1)) Option.none) 0 (Value.nat 2) false
      = .error PyExc.assertionError :=
  C4_double_resolve_rejected 0 (stP (some (Value.nat 1)) Option.none) 0
    ⟨some (Value.nat 1), Option.none, Option.none⟩ (Value.nat 1) (Value.nat 2) false
    rfl rfl

/-- Claim C5: registering a continuation on an already-resolved
container fires it exactly once with the stored result — inline (one new
log entry, nothing scheduled) when `run_immediately` is true, otherwise
scheduled once through the event queue with the stored result; in the
concrete scenario, a container resolved with 42 fires a continuation
registered afterwards with `run_immediately=true` synchronously with
42. -/
theorem C5_then_after_resolved (fuel : Nat) (st : St) (pid : Nat) (o : Obj)
    (r : Value) (cb : Cb)
    (h1 : st.objs pid = some o) (h2 : o.result = some r)
    (h3 : o.thenFn = Option.none) :
    (exLog (Promise.thenOp (fuel + 2) st pid Cb.record true) = some (st.log ++ [r]) ∧
      exQueue (Promise.thenOp (fuel + 2) st pid Cb.record true) = some st.queue) ∧
    (exQueue (Promise.thenOp (fuel + 1) st pid cb false) = some (st.queue ++ [(cb, r)]) ∧
      exLog (Promise.thenOp (fuel + 1) st pid cb false) = some st.log) ∧
    (exLog (Promise.thenOp 2 C5st 0 Cb.record true) = some [Value.nat 42] ∧
      exQueue (Promise.thenOp 2 C5st 0 Cb.record true) = some []) := by
  refine ⟨⟨?_, ?_⟩, ⟨?_, ?_⟩, rfl, rfl⟩ <;>
    simp [Promise.thenOp, invokeCb, h1, h2, h3, St.setObj, call_soon, exLog, exQueue]

/-- Witness for the late-registration theorem at a concrete resolved
promise. -/
theorem C5_witness :
    (exLog (Promise.thenOp 2 (stP (some (Value.nat 7)) Option.none) 0 Cb.record true)
        = some [Value.nat 7] ∧
      exQueue (Promise.thenOp 2 (stP (some (Value.nat 7)) Option.none) 0 Cb.record true)
        = some []) ∧
    (exQueue (Promise.thenOp 1 (stP (some (Value.nat 7)) Option.none) 0 Cb.record false)
        = some [(Cb.record, Value.nat 7)] ∧
      exLog (Promise.thenOp 1 (stP (some (Value.nat 7)) Option.none) 0 Cb.record false)
        = some []) ∧
    (exLog (Promise.thenOp 2 C5st 0 Cb.record true) = some [Value.nat 42] ∧
      exQueue (Promise.thenOp 2 C5st 0 Cb.record true) = some []) :=
  C5_then_after_resolved 0 (stP (some (Value.nat 7)) Option.none) 0
    ⟨some (Value.nat 7), Option.none, Option.none⟩ (Value.nat 7) Cb.record
    rfl rfl rfl

/-- Claim C10: a scheduled callback that raises `StopIteration` when
dispatched is silently swallowed by `Application._invoke_function`
(`except StopIteration: pass`): the dispatcher reports no exception and
the state is untouched. -/
theorem C10_dispatcher_swallows_stopiteration (fuel : Nat) (st : St) (v a : Value) :
    invokeFunction (fuel + 1) st (Cb.raises (PyExc.stopIteration v), a)
      = (st, Option.none) := by
  simp [invokeFunction, invokeCb]

/-- Claim C7 counterexample: with the application alive, interactive
messages enabled and a non-loop-thread caller, an Abort choice makes the
handler call `sys.exit(-1)` while still inside the blocking hand-off —
the trace contains the exit call but neither a hand-off unwind nor a
return of `notify`, so the claim that termination happens only after
`notify` returns and the hand-off has fully unwound is false. -/
theorem C7_counterexample :
    NEvent.exitCall (-1) ∈ (showInfoMsgBox ⟨true, true, false, false⟩ MsgChoice.abort []).1 ∧
    (showInfoMsgBox ⟨true, true, false, false⟩ MsgChoice.abort []).2 = some (-1) ∧
    NEvent.notifyReturn ∉ (showInfoMsgBox ⟨true, true, false, false⟩ MsgChoice.abort []).1 ∧
    NEvent.handoffExit ∉ (showInfoMsgBox ⟨true, true, false, false⟩ MsgChoice.abort []).1 ∧
    NEvent.handoffEnter true ∈ (showInfoMsgBox ⟨true, true, false, false⟩ MsgChoice.abort []).1 := by
  decide

/-- Claim C7 (amended): when the display handler signals abort (with the
application alive and interactive messages enabled), `sys.exit(-1)` — a
non-zero termination — is raised from within the handler, during the
hand-off: the hand-off never unwinds and `notify` never returns control
to its caller. -/
theorem C7_abort_exits_inside_handoff (b : BridgeIn) (info : List String)
    (h1 : b.qappExists = true) (h2 : b.interactiveMsg = true) :
    (showInfoMsgBox b MsgChoice.abort info).2 = some (-1) ∧
    NEvent.exitCall (-1) ∈ (showInfoMsgBox b MsgChoice.abort info).1 ∧
    NEvent.handoffEnter (!b.callerIsLoopThread) ∈ (showInfoMsgBox b MsgChoice.abort info).1 ∧
    NEvent.handoffExit ∉ (showInfoMsgBox b MsgChoice.abort info).1 ∧
    NEvent.notifyReturn ∉ (showInfoMsgBox b MsgChoice.abort info).1 := by
  cases hb : b.hasPauseHook <;>
    simp [showInfoMsgBox, Application.showMessage, h1, h2, hb]

/-- Witness for the abort theorem at a concrete bridge input. -/
theorem C7_abort_witness :
    (showInfoMsgBox ⟨true, true, false, false⟩ MsgChoice.abort []).2 = some (-1) ∧
    NEvent.exitCall (-1) ∈ (showInfoMsgBox ⟨true, true, false, false⟩ MsgChoice.abort []).1 ∧
    NEvent.handoffEnter (!(⟨true, true, false, false⟩ : BridgeIn).callerIsLoopThread)
      ∈ (showInfoMsgBox ⟨true, true, false, false⟩ MsgChoice.abort []).1 ∧
    NEvent.handoffExit ∉ (showInfoMsgBox ⟨true, true, false, false⟩ MsgChoice.abort []).1 ∧
    NEvent.notifyReturn ∉ (showInfoMsgBox ⟨true, true, false, false⟩ MsgChoice.abort []).1 :=
  C7_abort_exits_inside_handoff ⟨true, true, false, false⟩ [] rfl rfl

/-- Claim C8 counterexample: in non-interactive mode (application alive,
`_interactive_msg` false, non-loop-thread caller) the trace of `notify`
contains no hand-off and no handler entry at all — `_show_info_msg_box`
skips `QMetaObject.invokeMethod` entirely — refuting the claim that the
same hand-off is performed and the handler still invoked. -/
theorem C8_counterexample :
    NEvent.handlerStart ∉ (showInfoMsgBox ⟨true, false, false, false⟩ MsgChoice.ignore []).1 ∧
    NEvent.handoffEnter true ∉ (showInfoMsgBox ⟨true, false, false, false⟩ MsgChoice.ignore []).1 ∧
    NEvent.handoffEnter false ∉ (showInfoMsgBox ⟨true, false, false, false⟩ MsgChoice.ignore []).1 ∧
    NEvent.stderrWrite [] ∈ (showInfoMsgBox ⟨true, false, false, false⟩ MsgChoice.ignore []).1 := by
  decide

/-- Claim C8 (amended): in non-interactive mode `notify` performs no
thread hand-off and never invokes the display handler; it records the
full fault detail on the diagnostic stream and returns immediately,
without blocking and without raising. -/
theorem C8_noninteractive_skips_handoff (b : BridgeIn) (choice : MsgChoice)
    (info : List String) (h : b.interactiveMsg = false) :
    showInfoMsgBox b choice info
      = ([NEvent.stderrWrite info, NEvent.notifyReturn], Option.none) := by
  simp [showInfoMsgBox, h]

/-- Witness for the non-interactive theorem at a concrete bridge
input. -/
theorem C8_noninteractive_witness :
    showInfoMsgBox ⟨true, false, false, false⟩ MsgChoice.ignore []
      = ([NEvent.stderrWrite [], NEvent.notifyReturn], Option.none) :=
  C8_noninteractive_skips_handoff ⟨true, false, false, false⟩ MsgChoice.ignore [] rfl

/-- Claim C9: once the loop-owning application object has been torn down
(`qapp` is gone), `notify` neither raises nor blocks: it writes the
detail to the diagnostic stream and returns immediately, with no
hand-off, no handler invocation and no exit. -/
theorem C9_notify_after_teardown_noop (b : BridgeIn) (choice : MsgChoice)
    (info : List String) (h : b.qappExists = false) :
    showInfoMsgBox b choice info
      = ([NEvent.stderrWrite info, NEvent.notifyReturn], Option.none) := by
  simp [showInfoMsgBox, h]

/-- Witness for the teardown theorem at a concrete bridge input. -/
theorem C9_teardown_witness :
    showInfoMsgBox ⟨false, true, false, false⟩ MsgChoice.abort []
      = ([NEvent.stderrWrite [], NEvent.notifyReturn], Option.none) :=
  C9_notify_after_teardown_noop ⟨false, true, false, false⟩ MsgChoice.abort [] rfl

/-- A non-raising `send` that completes normally leaves the coroutine
body in the `finished` state. -/
theorem stepBody_stop_finished (b : CoroBody) (v : Value) (cs1 : CoroState)
    (h : stepBody b = .ok (SendOut.stop v, cs1)) : cs1 = CoroState.finished := by
  cases b <;> simp_all [stepBody]

/-- A `coro.send(None)` that completes normally leaves the coroutine
object in the `finished` state. -/
theorem coroSend_stop_finished (st : St) (cs : CoroState) (v : Value) (cs1 : CoroState)
    (h : coroSend st cs = .ok (SendOut.stop v, cs1)) : cs1 = CoroState.finished := by
  cases cs with
  | fresh b => exact stepBody_stop_finished b v cs1 h
  | paused pid k =>
    cases ho : st.objs pid with
    | none => simp [coroSend, ho] at h
    | some o =>
      cases hr : o.result with
      | none => simp [coroSend, ho, hr] at h
      | some r =>
        simp only [coroSend, ho, hr] at h
        exact stepBody_stop_finished _ v cs1 h
  | finished => simp [coroSend] at h

/-- Claim C1: the driver resumes the computation with the stored result
of the container it is suspended on — the most recently resolved value —
and with nothing on the first step (a fresh computation simply starts
from its beginning); concretely, the computation that awaits two
sequential containers resolved with 1 and then 2 completes with 3. -/
theorem C1_step_resume_semantics (st : St) (body : CoroBody) (pid : Nat)
    (k : Value → CoroBody) (o : Obj) (r : Value)
    (h1 : st.objs pid = some o) (h2 : o.result = some r) :
    coroSend st (CoroState.fresh body) = stepBody body ∧
    coroSend st (CoroState.paused pid k) = stepBody (k r) ∧
    resultOf (runQueue 20 C1st).1 2 = some (some (Value.nat 3)) ∧
    (runQueue 20 C1st).2 = Option.none := by
  refine ⟨rfl, ?_, rfl, rfl⟩
  simp [coroSend, h1, h2]

/-- Witness for the resumption theorem at a concrete resolved
promise. -/
theorem C1_witness :
    coroSend (stP (some (Value.nat 5)) Option.none) (CoroState.fresh (CoroBody.ret Value.none))
      = stepBody (CoroBody.ret Value.none) ∧
    coroSend (stP (some (Value.nat 5)) Option.none) (CoroState.paused 0 CoroBody.ret)
      = stepBody (CoroBody.ret (Value.nat 5)) ∧
    resultOf (runQueue 20 C1st).1 2 = some (some (Value.nat 3)) ∧
    (runQueue 20 C1st).2 = Option.none :=
  C1_step_resume_semantics (stP (some (Value.nat 5)) Option.none) (CoroBody.ret Value.none)
    0 CoroBody.ret ⟨some (Value.nat 5), Option.none, Option.none⟩ (Value.nat 5) rfl rfl

/-- Claim C2: a driver whose computation completes normally resolves its
own container with exactly the final value, leaves the queue untouched
(nothing further scheduled since no continuation is registered), and
cannot resolve it a second time — a further step raises `RuntimeError`
from `send` on the finished coroutine instead of resolving again. -/
theorem C2_normal_completion_resolves_exactly_once (fuel : Nat) (st : St)
    (tid : Nat) (o : Obj) (cs : CoroState) (v : Value) (cs1 : CoroState)
    (h1 : st.objs tid = some o) (h2 : o.cstate = some cs)
    (h3 : o.result = Option.none) (h4 : o.thenFn = Option.none)
    (h5 : coroSend st cs = .ok (SendOut.stop v, cs1)) :
    exResultOf (Task.wakeup (fuel + 2) st tid) tid = some (some (some v)) ∧
    exQueue (Task.wakeup (fuel + 2) st tid) = some st.queue ∧
    (Task.wakeup (fuel + 2) st tid).bind (fun s => Task.wakeup (fuel + 2) s tid)
      = .error PyExc.runtimeError := by
  have hfin := coroSend_stop_finished st cs v cs1 h5
  subst hfin
  refine ⟨?_, ?_, ?_⟩
  · simp only [Task.wakeup, h1, h2, h5]
    simp [Promise.resolve, St.setObj, h3, h4, exResultOf, resultOf]
  · simp only [Task.wakeup, h1, h2, h5]
    simp [Promise.resolve, St.setObj, h3, h4, exQueue]
  · simp only [Task.wakeup, h1, h2, h5]
    simp [Promise.resolve, St.setObj, h3, h4, Except.bind]
    simp [Task.wakeup, St.setObj, coroSend]

/-- Witness for the normal-completion theorem at a concrete task whose
computation returns 5. -/
theorem C2_witness :
    exResultOf (Task.wakeup 2 (st0.allocTask (CoroBody.ret (Value.nat 5))).1 0) 0
      = some (some (some (Value.nat 5))) ∧
    exQueue (Task.wakeup 2 (st0.allocTask (CoroBody.ret (Value.nat 5))).1 0)
      = some (st0.allocTask (CoroBody.ret (Value.nat 5))).1.queue ∧
    (Task.wakeup 2 (st0.allocTask (CoroBody.ret (Value.nat 5))).1 0).bind
        (fun s => Task.wakeup 2 s 0)
      = .error PyExc.runtimeError :=
  C2_normal_completion_resolves_exactly_once 0
    (st0.allocTask (CoroBody.ret (Value.nat 5))).1 0
    ⟨Option.none, Option.none, some (CoroState.fresh (CoroBody.ret (Value.nat 5)))⟩
    (CoroState.fresh (CoroBody.ret (Value.nat 5))) (Value.nat 5) CoroState.finished
    rfl rfl rfl rfl rfl

/-- Claim C3: a fault other than normal completion raised during a
driver step propagates unmodified out of the step call (the driver
catches only `StopIteration`), the driver does not resolve its own
container, and the Qt dispatcher surfaces the fault to its caller; in
the concrete scenario the computation raising exception 7 before
suspending leaves the container forever unresolved and the fault is seen
at the initial step. -/
theorem C3_fault_propagates_container_unresolved (fuel : Nat) (st : St)
    (tid : Nat) (o : Obj) (cs : CoroState) (m : Nat)
    (h1 : st.objs tid = some o) (h2 : o.cstate = some cs)
    (h5 : coroSend st cs = .error (PyExc.userExc m)) :
    Task.wakeup (fuel + 1) st tid = .error (PyExc.userExc m) ∧
    invokeFunction (fuel + 2) st (Cb.wakeup tid, Value.none)
      = (st, some (PyExc.userExc m)) ∧
    (runQueue 10 C3st).2 = some (PyExc.userExc 7) ∧
    resultOf (runQueue 10 C3st).1 0 = some Option.none := by
  have hw : Task.wakeup (fuel + 1) st tid = .error (PyExc.userExc m) := by
    simp [Task.wakeup, h1, h2, h5]
  refine ⟨hw, ?_, rfl, rfl⟩
  simp [invokeFunction, invokeCb, hw]

/-- Witness for the fault-propagation theorem at the concrete raising
task. -/
theorem C3_witness :
    Task.wakeup 1 C3st 0 = .error (PyExc.userExc 7) ∧
    invokeFunction 2 C3st (Cb.wakeup 0, Value.none) = (C3st, some (PyExc.userExc 7)) ∧
    (runQueue 10 C3st).2 = some (PyExc.userExc 7) ∧
    resultOf (runQueue 10 C3st).1 0 = some Option.none :=
  C3_fault_propagates_container_unresolved 0 C3st 0
    ⟨Option.none, Option.none, some (CoroState.fresh (CoroBody.raiseE 7))⟩
    (CoroState.fresh (CoroBody.raiseE 7)) 7 rfl rfl rfl


/-
Batch await (`resolve_all`): setup order, the general await loop, and a
concrete out-of-order scenario.
-/

/-- Expected ids returned by the `A1` comprehension when the next fresh
heap id is `n`: promise items keep their id, coroutine items receive the
successive fresh ids in input order. -/
def raIds (n : Nat) : List RAItem → List Nat
  | [] => []
  | RAItem.prom pid :: rest => pid :: raIds n rest
  | RAItem.coro _ :: rest => n :: raIds (n + 1) rest

/-- Ids of the tasks freshly created by the `A1` comprehension, in
creation order (one per coroutine item, in input order). -/
def raNewTasks (n : Nat) : List RAItem → List Nat
  | [] => []
  | RAItem.prom _ :: rest => raNewTasks n rest
  | RAItem.coro _ :: rest => n :: raNewTasks (n + 1) rest

/-- The `A1` comprehension initiates each coroutine item as a driver in
input order: the ids come out in input order with fresh task ids
assigned increasingly, and the first wakeups of the new tasks are
appended to the queue in input order. -/
theorem resolveAllSetup_spec (A : List RAItem) (st : St) :
    (resolveAllSetup st A).2 = raIds st.nextId A ∧
    (resolveAllSetup st A).1.queue
      = st.queue ++ (raNewTasks st.nextId A).map (fun t => (Cb.wakeup t, Value.none)) := by
  induction A generalizing st with
  | nil => simp [resolveAllSetup, raIds, raNewTasks]
  | cons a rest ih =>
    cases a with
    | prom pid => simp [resolveAllSetup, raIds, raNewTasks, ih st]
    | coro body =>
      have h := ih (call_soon (st.allocTask body).1 (Cb.wakeup (st.allocTask body).2) Value.none)
      simp only [St.allocTask, call_soon] at h
      simp [resolveAllSetup, raIds, raNewTasks, h.1, h.2, St.allocTask, call_soon]

/-- Only the object heap influences `coro.send`. -/
theorem coroSend_objs_eq (st1 st2 : St) (cs : CoroState)
    (h : st1.objs = st2.objs) : coroSend st1 cs = coroSend st2 cs := by
  cases cs <;> simp [coroSend, h]

/-- One dispatch of the event loop: pop the head callback and, if it
returns normally, continue with the remaining fuel. -/
theorem runQueue_cons (n : Nat) (st : St) (c : Cb × Value) (cs : List (Cb × Value))
    (st1 : St) (hq : st.queue = c :: cs)
    (hinv : invokeFunction n { st with queue := cs } c = (st1, Option.none)) :
    runQueue (n + 1) st = runQueue n st1 := by
  simp [runQueue, hq, hinv]

/-- Invariant of the batch-await loop: a task `tid` whose coroutine
resumes into the await loop over the pending ids `pvs.map Prod.fst`
(all already resolved with the paired values and free of registered
continuations), with exactly the task wakeup queued, runs to completion
and resolves `tid` with the accumulated results in input order. -/
theorem raRun (pvs : List (Nat × Value)) (acc : List Value) (st : St)
    (tid : Nat) (x : Value) (cs : CoroState)
    (hq : st.queue = [(Cb.wakeup tid, x)])
    (ht : st.objs tid = some ⟨Option.none, Option.none, some cs⟩)
    (hcs : coroSend st cs = stepBody (resolveAllBody acc (pvs.map Prod.fst)))
    (hp : ∀ p v, (p, v) ∈ pvs → p ≠ tid ∧ ∃ o, st.objs p = some o ∧
      o.result = some v ∧ o.thenFn = Option.none)
    (hnd : (pvs.map Prod.fst).Nodup) :
    (runQueue (pvs.length + 6) st).2 = Option.none ∧
    resultOf (runQueue (pvs.length + 6) st).1 tid
      = some (some (Value.vlist (acc ++ pvs.map Prod.snd))) := by
  induction pvs generalizing acc st cs x with
  | nil =>
    have hcs2 : coroSend { st with queue := [] } cs
        = stepBody (resolveAllBody acc []) := by
      rw [coroSend_objs_eq { st with queue := [] } st cs rfl]; exact hcs
    have hsend : coroSend { st with queue := [] } cs
        = .ok (SendOut.stop (Value.vlist acc), CoroState.finished) := hcs2
    have hwk : Task.wakeup 4 { st with queue := [] } tid
        = .ok ((({ st with queue := [] }).setObj tid
            ⟨Option.none, Option.none, some CoroState.finished⟩).setObj tid
              ⟨some (Value.vlist acc), Option.none, some CoroState.finished⟩) := by
      simp only [Task.wakeup, ht, hsend]
      simp [Promise.resolve, St.setObj]
    have hinv : invokeFunction 5 { st with queue := [] } (Cb.wakeup tid, x)
        = ((({ st with queue := [] }).setObj tid
            ⟨Option.none, Option.none, some CoroState.finished⟩).setObj tid
              ⟨some (Value.vlist acc), Option.none, some CoroState.finished⟩, Option.none) := by
      simp only [invokeFunction, invokeCb]
      rw [hwk]
    have hone : runQueue 6 st
        = runQueue 5 ((({ st with queue := [] }).setObj tid
            ⟨Option.none, Option.none, some CoroState.finished⟩).setObj tid
              ⟨some (Value.vlist acc), Option.none, some CoroState.finished⟩) :=
      runQueue_cons 5 st (Cb.wakeup tid, x) [] _ hq hinv
    simp only [List.length_nil, Nat.zero_add, List.map_nil, List.append_nil]
    rw [hone]
    simp [runQueue, St.setObj, call_soon, resultOf]
  | cons pw rest ih =>
    obtain ⟨p, w⟩ := pw
    obtain ⟨hptid, op, hop, hopr, hopt⟩ := hp p w (List.mem_cons_self _ _)
    have hnd2 : p ∉ rest.map Prod.fst ∧ (rest.map Prod.fst).Nodup := by
      rw [List.map_cons] at hnd; exact List.nodup_cons.mp hnd
    have hcs2 : coroSend { st with queue := [] } cs
        = stepBody (resolveAllBody acc (((p, w) :: rest).map Prod.fst)) := by
      rw [coroSend_objs_eq { st with queue := [] } st cs rfl]; exact hcs
    have hsend : coroSend { st with queue := [] } cs
        = .ok (SendOut.yielded p, CoroState.paused p
            (fun v => resolveAllBody (acc ++ [v]) (rest.map Prod.fst))) := hcs2
    have hwk : Task.wakeup (rest.length + 5) { st with queue := [] } tid
        = .ok (call_soon
            ((({ st with queue := [] }).setObj tid
                ⟨Option.none, Option.none, some (CoroState.paused p
                  (fun v => resolveAllBody (acc ++ [v]) (rest.map Prod.fst)))⟩).setObj p
              { op with thenFn := some (Cb.wakeup tid) })
            (Cb.wakeup tid) w) := by
      simp only [Task.wakeup, ht, hsend]
      simp [Promise.thenOp, St.setObj, hptid, hop, hopr, hopt, call_soon]
    have hinv : invokeFunction (rest.length + 6) { st with queue := [] } (Cb.wakeup tid, x)
        = (call_soon
            ((({ st with queue := [] }).setObj tid
                ⟨Option.none, Option.none, some (CoroState.paused p
                  (fun v => resolveAllBody (acc ++ [v]) (rest.map Prod.fst)))⟩).setObj p
              { op with thenFn := some (Cb.wakeup tid) })
            (Cb.wakeup tid) w, Option.none) := by
      simp only [invokeFunction, invokeCb]
      rw [hwk]
    have hone : runQueue (rest.length + 6 + 1) st
        = runQueue (rest.length + 6)
            (call_soon
              ((({ st with queue := [] }).setObj tid
                  ⟨Option.none, Option.none, some (CoroState.paused p
                    (fun v => resolveAllBody (acc ++ [v]) (rest.map Prod.fst)))⟩).setObj p
                { op with thenFn := some (Cb.wakeup tid) })
              (Cb.wakeup tid) w) :=
      runQueue_cons (rest.length + 6) st (Cb.wakeup tid, x) [] _ hq hinv
    have hIH := ih (acc ++ [w])
      (call_soon
        ((({ st with queue := [] }).setObj tid
            ⟨Option.none, Option.none, some (CoroState.paused p
              (fun v => resolveAllBody (acc ++ [v]) (rest.map Prod.fst)))⟩).setObj p
          { op with thenFn := some (Cb.wakeup tid) })
        (Cb.wakeup tid) w)
      w
      (CoroState.paused p (fun v => resolveAllBody (acc ++ [v]) (rest.map Prod.fst)))
      (by simp [call_soon, St.setObj])
      (by simp [call_soon, St.setObj, Ne.symm hptid])
      (by simp [coroSend, call_soon, St.setObj, hopr])
      (by
        intro q v hqv
        obtain ⟨hqtid, oq, hoq, hoqr, hoqt⟩ := hp q v (List.mem_cons_of_mem _ hqv)
        have hqp : q ≠ p := by
          intro hEq
          exact hnd2.1 (hEq ▸ List.mem_map_of_mem Prod.fst hqv)
        exact ⟨hqtid, oq, by simp [call_soon, St.setObj, hqp, hqtid, hoq], hoqr, hoqt⟩)
      hnd2.2
    simp only [List.length_cons, List.map_cons]
    rw [show rest.length + 1 + 6 = rest.length + 6 + 1 from rfl, hone]
    refine ⟨hIH.1, ?_⟩
    rw [hIH.2]
    simp

/-- Pair each value of a list with its heap id, starting at `n`. -/
def withIdx (n : Nat) : List Value → List (Nat × Value)
  | [] => []
  | v :: rest => (n, v) :: withIdx (n + 1) rest

/-- Indexing preserves length. -/
theorem withIdx_length (vs : List Value) (n : Nat) :
    (withIdx n vs).length = vs.length := by
  induction vs generalizing n with
  | nil => rfl
  | cons v rest ih => simp [withIdx, ih]

/-- Dropping the indices gives back the original list. -/
theorem withIdx_snd (vs : List Value) (n : Nat) :
    (withIdx n vs).map Prod.snd = vs := by
  induction vs generalizing n with
  | nil => rfl
  | cons v rest ih => simp [withIdx, ih]

/-- A pair of the indexed list locates its value in the original
list. -/
theorem withIdx_mem (vs : List Value) (n p : Nat) (v : Value)
    (h : (p, v) ∈ withIdx n vs) :
    n ≤ p ∧ p < n + vs.length ∧ vs[p - n]? = some v := by
  induction vs generalizing n with
  | nil => simp [withIdx] at h
  | cons v0 rest ih =>
    simp only [withIdx, List.mem_cons] at h
    cases h with
    | inl h0 =>
      obtain ⟨h1, h2⟩ := Prod.mk.injEq .. ▸ h0
      subst h1; subst h2
      simp
    | inr h1 =>
      obtain ⟨ha, hb, hc⟩ := ih (n + 1) h1
      refine ⟨by omega, by simp; omega, ?_⟩
      rw [show p - n = (p - (n + 1)) + 1 by omega]
      simpa using hc

/-- The indices of the indexed list are distinct. -/
theorem withIdx_fst_nodup (vs : List Value) (n : Nat) :
    ((withIdx n vs).map Prod.fst).Nodup := by
  induction vs generalizing n with
  | nil => simp [withIdx]
  | cons v rest ih =>
    simp only [withIdx, List.map_cons, List.nodup_cons]
    refine ⟨?_, ih (n + 1)⟩
    intro hmem
    obtain ⟨⟨q, w⟩, hqw, hq⟩ := List.mem_map.mp hmem
    have := (withIdx_mem rest (n + 1) q w hqw).1
    omega

/-- Pre-resolved batch state for an arbitrary list `vs`: promises
`0 .. vs.length - 1` hold the entries of `vs` (whatever the order in
which they were resolved, the heap looks the same once they all are),
and the batch task at id `vs.length` is about to await them in input
order, with its first wakeup queued. -/
def C6preSt (vs : List Value) : St :=
  ⟨fun j =>
      match vs[j]? with
      | some v => some ⟨some v, Option.none, Option.none⟩
      | Option.none =>
        if j = vs.length then
          some ⟨Option.none, Option.none,
            some (CoroState.fresh (resolveAllBody [] ((withIdx 0 vs).map Prod.fst)))⟩
        else Option.none,
    vs.length + 1, [(Cb.wakeup vs.length, Value.none)], []⟩

/-- For every list of values, the batch-await task over the resolved
containers completes cleanly with exactly that list, in input order. -/
theorem C6general (vs : List Value) :
    (runQueue (vs.length + 6) (C6preSt vs)).2 = Option.none ∧
    resultOf (runQueue (vs.length + 6) (C6preSt vs)).1 vs.length
      = some (some (Value.vlist vs)) := by
  have hlen := withIdx_length vs 0
  have h := raRun (withIdx 0 vs) [] (C6preSt vs) vs.length Value.none
    (CoroState.fresh (resolveAllBody [] ((withIdx 0 vs).map Prod.fst)))
    rfl
    (by simp [C6preSt, List.getElem?_eq_none (le_refl vs.length)])
    rfl
    (by
      intro p v hpv
      obtain ⟨h0, hlt, hget⟩ := withIdx_mem vs 0 p v hpv
      rw [Nat.sub_zero] at hget
      refine ⟨by omega, ⟨some v, Option.none, Option.none⟩, ?_, rfl, rfl⟩
      simp [C6preSt, hget])
    (withIdx_fst_nodup vs 0)
  rw [hlen] at h
  rw [withIdx_snd vs 0] at h
  simpa using h

/-- Claim C6: first, the batch setup initiates every coroutine item as a
driver (task) in input order — fresh task ids are assigned increasingly
along the input and their first wakeups are queued in input order;
second, for every list of values, awaiting the resolved containers in
input order completes with exactly those values in input order; third,
in the concrete mixed scenario whose completion order (task 1, task 2,
then promise 0) differs from input order — promise 0 is listed first but
resolves last, after the batch task has registered on it while pending —
the batch still yields the results in input order. -/
theorem C6_batch_await_input_order (st : St) (A : List RAItem) (vs : List Value)
    (vp va vc : Value) :
    ((resolveAllSetup st A).2 = raIds st.nextId A ∧
      (resolveAllSetup st A).1.queue
        = st.queue ++ (raNewTasks st.nextId A).map (fun t => (Cb.wakeup t, Value.none))) ∧
    ((runQueue (vs.length + 6) (C6preSt vs)).2 = Option.none ∧
      resultOf (runQueue (vs.length + 6) (C6preSt vs)).1 vs.length
        = some (some (Value.vlist vs))) ∧
    (resultOf (runQueue 20 (C6st vp va vc)).1 3
        = some (some (Value.vlist [vp, va, vc])) ∧
      (runQueue 20 (C6st vp va vc)).2 = Option.none) :=
  ⟨resolveAllSetup_spec A st, C6general vs, rfl, rfl⟩

end QApp
